import Mathlib

/-!
Shallow embedding of the Video-To-Reel pipeline (milestone 3, sub.py),
together with theorems checking the natural-language specification
against the code.  Timestamps and durations are rationals, the file
system is a list of (path, contents) pairs, and every external effect
(whisper transcription, VADER sentiment scoring, the summarization API,
moviepy rendering) is represented by an explicit parameter so the
control flow of the Python source can be reproduced exactly.
-/

namespace VideoToReel

/-- A transcription segment as produced by whisper: a start time, an end
time (field named stop because end is reserved), and the spoken text. -/
structure Segment where
  start : ℚ
  stop : ℚ
  text : String
deriving DecidableEq

/-- File system state: a list of (path, contents) entries, at most one
entry per path. -/
abbrev FS : Type := List (String × String)

/-- Writing a file replaces any existing entry at the same path
(Python open(path, "w") truncates). -/
def fsWrite (fs : FS) (p c : String) : FS :=
  (p, c) :: fs.filter (fun e => decide (e.1 ≠ p))

/-- Deleting a file (os.unlink) removes its entry. -/
def fsUnlink (fs : FS) (p : String) : FS :=
  fs.filter (fun e => decide (e.1 ≠ p))

/-- File-existence test. -/
def fsExists (fs : FS) (p : String) : Bool :=
  fs.any (fun e => decide (e.1 = p))

/-- Reading a file returns its contents when present. -/
def fsRead (fs : FS) (p : String) : Option String :=
  (fs.find? (fun e => decide (e.1 = p))).map (fun e => e.2)

/-- Embedding of os.path.basename: the part of the path after the last
slash. -/
def baseName (p : String) : String :=
  String.mk ((p.toList.reverse.takeWhile (fun c => decide (c ≠ '/'))).reverse)

/-- Rational addition written out on numerators and denominators, so
that the kernel can evaluate it on concrete values; qadd_eq shows it is
ordinary addition. -/
def qadd (a b : ℚ) : ℚ :=
  mkRat (a.num * (b.den : ℤ) + b.num * (a.den : ℤ)) (a.den * b.den)

/-- Rational subtraction written out on numerators and denominators;
qsub_eq shows it is ordinary subtraction. -/
def qsub (a b : ℚ) : ℚ :=
  mkRat (a.num * (b.den : ℤ) - b.num * (a.den : ℤ)) (a.den * b.den)

theorem qadd_eq (a b : ℚ) : qadd a b = a + b := (Rat.add_def' a b).symm

theorem qsub_eq (a b : ℚ) : qsub a b = a - b := (Rat.sub_def' a b).symm

/-- The sentiment threshold 0.05 of analyze_sentiment, written as the
rational 5/100 so the kernel can evaluate comparisons against it. -/
def threshold : ℚ := mkRat 5 100

theorem threshold_eq : threshold = (0.05 : ℚ) := by
  rw [threshold, Rat.mkRat_eq_div]
  norm_num

/-- Embedding of sub.py analyze_sentiment: keep exactly the segments
whose compound polarity is strictly above 0.05.  The VADER scorer is an
external library and enters as the parameter score. -/
def analyze_sentiment (score : String → ℚ) (segments : List Segment) : List Segment :=
  segments.filter (fun segment => decide (threshold < score segment.text))

/-- Validation test from sub.py create_reel: a segment is used only when
0 <= start < duration, 0 < end <= duration and start < end, where
duration is the duration of the source video. -/
def validSeg (video_duration : ℚ) (s : Segment) : Bool :=
  decide (0 ≤ s.start ∧ s.start < video_duration ∧ 0 < s.stop ∧
    s.stop ≤ video_duration ∧ s.start < s.stop)

/-- Clip produced from a valid segment in create_reel: the sub-clip
[start, end], trimmed to [start, start + 60] when its duration exceeds
60 seconds (video.subclip followed by subclip(0, 60)). -/
def clipOf (s : Segment) : ℚ × ℚ :=
  if 60 < qsub s.stop s.start then (s.start, qadd s.start 60) else (s.start, s.stop)

/-- The clip-collection loop of create_reel: valid segments contribute
their clip in order, invalid segments are skipped with a warning. -/
def collectClips (video_duration : ℚ) : List Segment → List (ℚ × ℚ)
  | [] => []
  | s :: rest =>
      if validSeg video_duration s then
        clipOf s :: collectClips video_duration rest
      else
        collectClips video_duration rest

/-- Output path of the reel for a user and reel index. -/
def reelPath (username : String) (reel_index : Nat) : String :=
  "uploads/reels/" ++ username ++ "_reel_" ++ toString reel_index ++ ".mp4"

/-- Embedding of sub.py create_reel.  The source video file is
represented by its duration; rendering and encoding are represented by
writing the output path into the file system.  When no valid clip was
collected the Python code raises ValueError, catches it, and returns
None with no file written; that is the (fs, none) branch. -/
def create_reel (segments : List Segment) (video_duration : ℚ)
    (username : String) (reel_index : Nat) (fs : FS) : FS × Option String :=
  let video_clips := collectClips video_duration segments
  if video_clips.isEmpty then (fs, none)
  else (fsWrite fs (reelPath username reel_index) "", some (reelPath username reel_index))

/-- Grouping step of process_video_upload (lines 338 to 347 of sub.py):
with fewer than 3 important segments no group is formed; otherwise
segment_count = length / 3 and group i is the slice
[i * segment_count : i * segment_count + segment_count). -/
def makeGroups (important_segments : List Segment) : List (List Segment) :=
  if 3 ≤ important_segments.length then
    let segment_count := important_segments.length / 3
    (List.range 3).map (fun i =>
      (important_segments.drop (i * segment_count)).take segment_count)
  else []

/-- The reel loop of process_video_upload: each group is rendered with
create_reel and the result (a path, or none on failure) is appended to
the list of reel paths. -/
def renderLoop (groups : List (List Segment)) (video_duration : ℚ)
    (username : String) (reel_index : Nat) (fs : FS) : FS × List (Option String) :=
  match groups with
  | [] => (fs, [])
  | g :: rest =>
      let step := create_reel g video_duration username reel_index fs
      let next := renderLoop rest video_duration username (reel_index + 1) step.1
      (next.1, step.2 :: next.2)

/-- Grouping plus rendering, exactly as in process_video_upload: groups
are formed from the important segments and rendered with reel indices
1, 2, 3. -/
def renderReels (important_segments : List Segment) (video_duration : ℚ)
    (username : String) (fs : FS) : FS × List (Option String) :=
  renderLoop (makeGroups important_segments) video_duration username 1 fs

/-- Decimal digits of a natural number with explicit fuel, most
significant first; structural recursion on the fuel keeps the function
reducible inside the kernel. -/
def natDigitsGo : Nat → Nat → List Char
  | 0, _ => []
  | fuel + 1, n =>
      if n < 10 then [Char.ofNat (48 + n)]
      else natDigitsGo fuel (n / 10) ++ [Char.ofNat (48 + n % 10)]

/-- Decimal digits of a natural number, most significant first. -/
def natDigits (n : Nat) : List Char :=
  natDigitsGo (n + 1) n

/-- Two-digit zero-padded rendering of the fractional part. -/
def pad2 (n : Nat) : List Char :=
  if n < 10 then ['0', Char.ofNat (48 + n)] else natDigits n

/-- The value of a rational rounded to two decimal places and scaled by
100: the floor of q * 100 + 1 / 2, computed on numerator and
denominator with flooring integer division. -/
def round2 (q : ℚ) : ℤ :=
  Int.fdiv (200 * q.num + (q.den : ℤ)) (2 * (q.den : ℤ))

/-- Fixed two-decimal rendering of a rational, embedding the Python
format specifier .2f used by save_transcript. -/
def fmt2 (q : ℚ) : List Char :=
  let n : ℤ := round2 q
  (if n < 0 then ['-'] else []) ++
    natDigits (n.natAbs / 100) ++ '.' :: pad2 (n.natAbs % 100)

/-- One transcript line for a segment, embedding the f-string
of save_transcript, newline included. -/
def transcriptLine (s : Segment) : List Char :=
  '[' :: fmt2 s.start ++ "s - ".toList ++ fmt2 s.stop ++
    "s]: ".toList ++ s.text.toList ++ ['\n']

/-- Full contents of the transcript file: the lines of all segments in
order. -/
def transcriptContent (transcript : List Segment) : List Char :=
  (transcript.map transcriptLine).flatten

/-- Path of the transcript artifact for a user and source filename. -/
def transcriptPath (filename username : String) : String :=
  "uploads/transcripts/" ++ username ++ "_" ++ filename ++ ".txt"

/-- Embedding of sub.py save_transcript: open the transcript path for
writing (truncating any previous file), write one line per segment, and
return the path.  The IOError branch of the source is a host file-system
failure, which the file-system model does not produce. -/
def save_transcript (transcript : List Segment) (filename username : String)
    (fs : FS) : FS × Option String :=
  (fsWrite fs (transcriptPath filename username)
      (String.mk (transcriptContent transcript)),
    some (transcriptPath filename username))

/-- Environment of one pipeline run: the temporary video path chosen by
tempfile, the outcome of every external effect, and the duration of the
source video.  transcribed is none when whisper raises (the source
returns None) and some segments on success. -/
structure Env where
  temp_video_path : String
  extract_ok : Bool
  transcribed : Option (List Segment)
  score : String → ℚ
  video_duration : ℚ
  motivational : Option String

/-- Result of process_video_upload: early is the 3-tuple
(None, None, []) returned by the early exits, done carries the
motivational contents, transcript path, reel paths and important
segments of the full run. -/
inductive PipelineResult where
  | early : PipelineResult
  | done : Option String → Option String → List (Option String) → List Segment →
      PipelineResult
deriving DecidableEq

/-- The audio path computed by process_video_upload for a video path and
username. -/
def audioPathOf (video_path username : String) : String :=
  "uploads/audio/" ++ username ++ "_" ++ baseName video_path ++ ".wav"

/-- The reel-path list of a pipeline result (empty on an early exit). -/
def resultReels : PipelineResult → List (Option String)
  | PipelineResult.early => []
  | PipelineResult.done _ _ reels _ => reels

/-- Embedding of sub.py process_video_upload for the uploaded-file
input: write the upload to the temporary video path, extract audio,
transcribe, filter by sentiment, render the reels, save the transcript,
and finally unlink the temporary video.  Every early return of the
source (extraction failure, transcription failure, empty transcription)
maps to PipelineResult.early and skips the unlink. -/
def process_video_upload (env : Env) (username : String) (fs : FS) :
    FS × PipelineResult :=
  let video_path := env.temp_video_path
  let fs0 := fsWrite fs video_path ""
  let audio_path := audioPathOf video_path username
  if env.extract_ok then
    let fs1 := fsWrite fs0 audio_path ""
    match env.transcribed with
    | none => (fs1, PipelineResult.early)
    | some segments =>
        if segments.isEmpty then (fs1, PipelineResult.early)
        else
          let important_segments := analyze_sentiment env.score segments
          let motivational_contents := env.motivational
          let rendered := renderReels important_segments env.video_duration username fs1
          let saved := save_transcript important_segments (baseName video_path)
            username rendered.1
          let fs2 := fsUnlink saved.1 video_path
          (fs2, PipelineResult.done motivational_contents saved.2 rendered.2
            important_segments)
  else (fs0, PipelineResult.early)

/-! Shared lemmas about the file-system model. -/

theorem fsExists_iff (fs : FS) (q : String) :
    fsExists fs q = true ↔ ∃ e ∈ fs, e.1 = q := by
  simp [fsExists, List.any_eq_true]

theorem fsExists_fsWrite_self (fs : FS) (p c : String) :
    fsExists (fsWrite fs p c) p = true := by
  simp [fsExists, fsWrite]

theorem fsExists_fsWrite_mono (fs : FS) (p c q : String)
    (h : fsExists fs q = true) : fsExists (fsWrite fs p c) q = true := by
  by_cases hpq : q = p
  · subst hpq; exact fsExists_fsWrite_self fs q c
  · rcases (fsExists_iff fs q).1 h with ⟨e, he, hq⟩
    refine (fsExists_iff _ q).2 ⟨e, ?_, hq⟩
    simp only [fsWrite, List.mem_cons, List.mem_filter]
    exact Or.inr ⟨he, by simp [hq, hpq]⟩

theorem fsExists_fsWrite_ne (fs : FS) (p c q : String) (h : q ≠ p) :
    fsExists (fsWrite fs p c) q = fsExists fs q := by
  rw [Bool.eq_iff_iff, fsExists_iff, fsExists_iff]
  constructor
  · rintro ⟨e, he, hq⟩
    rcases List.mem_cons.1 he with rfl | hmem
    · exact (h hq.symm).elim
    · exact ⟨e, (List.mem_filter.1 hmem).1, hq⟩
  · rintro ⟨e, he, hq⟩
    refine ⟨e, List.mem_cons.2 (Or.inr (List.mem_filter.2 ⟨he, ?_⟩)), hq⟩
    simp [hq, h]

theorem fsExists_fsUnlink_self (fs : FS) (p : String) :
    fsExists (fsUnlink fs p) p = false := by
  simp only [fsExists, fsUnlink, List.any_eq_false]
  intro e he
  rcases List.mem_filter.1 he with ⟨_, hne⟩
  simpa using hne

theorem fsExists_fsUnlink_ne (fs : FS) (p q : String) (h : p ≠ q) :
    fsExists (fsUnlink fs q) p = fsExists fs p := by
  rw [Bool.eq_iff_iff, fsExists_iff, fsExists_iff]
  constructor
  · rintro ⟨e, he, hq⟩
    exact ⟨e, (List.mem_filter.1 he).1, hq⟩
  · rintro ⟨e, he, hq⟩
    refine ⟨e, List.mem_filter.2 ⟨he, ?_⟩, hq⟩
    simp [hq, h]

theorem fsRead_fsWrite_self (fs : FS) (p c : String) :
    fsRead (fsWrite fs p c) p = some c := by
  simp [fsRead, fsWrite, List.find?]

/-! Shared lemmas about clip collection and the reel loop. -/

theorem collectClips_eq_filter_map (d : ℚ) (l : List Segment) :
    collectClips d l = (l.filter (validSeg d)).map clipOf := by
  induction l with
  | nil => rfl
  | cons s rest ih =>
      by_cases hs : validSeg d s
      · simp [collectClips, List.filter_cons, hs, ih]
      · simp only [Bool.not_eq_true] at hs
        simp [collectClips, List.filter_cons, hs, ih]

theorem renderLoop_snd_length (gs : List (List Segment)) (d : ℚ)
    (u : String) (i : Nat) (fs : FS) :
    (renderLoop gs d u i fs).2.length = gs.length := by
  induction gs generalizing i fs with
  | nil => rfl
  | cons g rest ih => simp [renderLoop, ih]

theorem create_reel_snd_const (g : List Segment) (d : ℚ) (u : String)
    (i : Nat) (fs fs' : FS) :
    (create_reel g d u i fs).2 = (create_reel g d u i fs').2 := by
  by_cases h : (collectClips d g).isEmpty <;> simp [create_reel, h]

theorem renderLoop_snd_const (gs : List (List Segment)) (d : ℚ)
    (u : String) (i : Nat) (fs fs' : FS) :
    (renderLoop gs d u i fs).2 = (renderLoop gs d u i fs').2 := by
  induction gs generalizing i fs fs' with
  | nil => rfl
  | cons g rest ih =>
      simp only [renderLoop]
      refine congrArg₂ _ ?_ ?_
      · exact create_reel_snd_const g d u i fs fs'
      · exact ih (i + 1) _ _

theorem renderLoop_fsExists_mono (gs : List (List Segment)) (d : ℚ)
    (u : String) (i : Nat) (fs : FS) (q : String)
    (h : fsExists fs q = true) :
    fsExists (renderLoop gs d u i fs).1 q = true := by
  induction gs generalizing i fs with
  | nil => exact h
  | cons g rest ih =>
      simp only [renderLoop]
      refine ih (i + 1) _ ?_
      by_cases hg : (collectClips d g).isEmpty
      · simpa [create_reel, hg] using h
      · simp only [create_reel, hg, if_neg, Bool.false_eq_true, if_false]
        exact fsExists_fsWrite_mono _ _ _ _ h

/-! C1: the grouping policy. -/

/-- C1.  Grouping policy: with fewer than 3 important segments no group
is formed and no reel is attempted; otherwise exactly 3 groups are
formed, group i is the slice [i * n, i * n + n) with n = length / 3,
every group has length n, and the groups together cover exactly the
first 3 * n segments, so the tail is dropped from every group. -/
theorem c1_grouping (l : List Segment) :
    (l.length < 3 → makeGroups l = [] ∧
      ∀ d u fs, renderReels l d u fs = (fs, [])) ∧
    (3 ≤ l.length →
      (makeGroups l).length = 3 ∧
      (∀ i, i < 3 → (makeGroups l).getD i [] =
        (l.drop (i * (l.length / 3))).take (l.length / 3)) ∧
      (∀ g ∈ makeGroups l, g.length = l.length / 3) ∧
      (makeGroups l).flatten = l.take (3 * (l.length / 3))) := by
  constructor
  · intro h
    have h3 : ¬ 3 ≤ l.length := by omega
    refine ⟨by simp [makeGroups, h3], ?_⟩
    intro d u fs
    simp [renderReels, makeGroups, h3, renderLoop]
  · intro h
    have hdm : l.length / 3 * 3 ≤ l.length := Nat.div_mul_le_self l.length 3
    refine ⟨by simp [makeGroups, h], ?_, ?_, ?_⟩
    · intro i hi
      interval_cases i <;> simp [makeGroups, h]
    · intro g hg
      simp only [makeGroups, h, if_pos, List.mem_map, List.mem_range] at hg
      rcases hg with ⟨i, hi, rfl⟩
      simp only [List.length_take, List.length_drop]
      have hstep : (i + 1) * (l.length / 3) ≤ 3 * (l.length / 3) :=
        Nat.mul_le_mul_right _ (by omega)
      rw [Nat.succ_mul] at hstep
      omega
    · have h3n : 3 * (l.length / 3) = l.length / 3 + (l.length / 3 + l.length / 3) := by
        ring
      rw [h3n, List.take_add, List.take_add, List.drop_drop]
      simp [makeGroups, h, List.range_succ, two_mul]

/-- Witness for C1 at a list of four segments. -/
theorem c1_grouping_witness :
    3 ≤ ([⟨0, 1, "a"⟩, ⟨1, 2, "b"⟩, ⟨2, 3, "c"⟩, ⟨3, 4, "d"⟩] : List Segment).length ∧
    (makeGroups [⟨0, 1, "a"⟩, ⟨1, 2, "b"⟩, ⟨2, 3, "c"⟩, ⟨3, 4, "d"⟩]).length = 3 :=
  ⟨by decide, ((c1_grouping [⟨0, 1, "a"⟩, ⟨1, 2, "b"⟩, ⟨2, 3, "c"⟩, ⟨3, 4, "d"⟩]).2
    (by decide)).1⟩

/-! C8: idempotence of the sentiment filter. -/

/-- C8.  The sentiment filter is idempotent, and on a list in which
every segment scores strictly above 0.05 it returns the list
unchanged. -/
theorem c8_filter_idempotent (score : String → ℚ) (l : List Segment) :
    analyze_sentiment score (analyze_sentiment score l) = analyze_sentiment score l ∧
    ((∀ s ∈ l, (0.05 : ℚ) < score s.text) → analyze_sentiment score l = l) := by
  constructor
  · simp [analyze_sentiment, List.filter_filter]
  · intro h
    refine List.filter_eq_self.mpr ?_
    intro s hs
    rw [decide_eq_true_eq, threshold_eq]
    exact h s hs

/-- A constant positive sentiment scorer, used by witnesses. -/
def oneScore : String → ℚ := fun _ => 1

theorem oneScore_gt (t : String) : (0.05 : ℚ) < oneScore t := by
  rw [← threshold_eq]
  change threshold < 1
  decide

/-- Witness for C8 at a constant scorer of 1 and a one-segment list. -/
theorem c8_filter_idempotent_witness :
    (∀ s ∈ ([⟨0, 1, "good"⟩] : List Segment), (0.05 : ℚ) < oneScore s.text) ∧
    analyze_sentiment oneScore [⟨0, 1, "good"⟩] = [⟨0, 1, "good"⟩] :=
  ⟨fun s _ => oneScore_gt s.text,
    (c8_filter_idempotent oneScore [⟨0, 1, "good"⟩]).2
      (fun s _ => oneScore_gt s.text)⟩

/-! C3: the sentiment filter. -/

/-- C3.  The sentiment filter returns the subsequence of segments whose
score is strictly above 0.05, in order and unmodified; a segment whose
score is at or below the threshold (in particular a neutral score of 0)
is dropped.  The function is a total Lean function, so it never fails
on any text. -/
theorem c3_sentiment_filter (score : String → ℚ) (l : List Segment) :
    (analyze_sentiment score l).Sublist l ∧
    (∀ s, s ∈ analyze_sentiment score l ↔ s ∈ l ∧ (0.05 : ℚ) < score s.text) ∧
    (∀ s ∈ l, score s.text ≤ 0.05 → s ∉ analyze_sentiment score l) := by
  refine ⟨List.filter_sublist l, ?_, ?_⟩
  · intro s
    simp [analyze_sentiment, List.mem_filter, threshold_eq]
  · intro s _ hle hmem
    have hgt := (List.mem_filter.1 hmem).2
    rw [decide_eq_true_eq, threshold_eq] at hgt
    exact absurd hgt (not_lt.2 hle)

/-- A scorer that rates the text good as 1 and everything else as 0,
used by witnesses. -/
def mixedScore : String → ℚ := fun t => if t = "good" then 1 else 0

/-- Witness for C3: a neutral-scored segment is dropped. -/
theorem c3_sentiment_filter_witness :
    (⟨1, 2, "meh"⟩ : Segment) ∈ ([⟨0, 1, "good"⟩, ⟨1, 2, "meh"⟩] : List Segment) ∧
    mixedScore "meh" ≤ 0.05 ∧
    (⟨1, 2, "meh"⟩ : Segment) ∉
      analyze_sentiment mixedScore [⟨0, 1, "good"⟩, ⟨1, 2, "meh"⟩] :=
  ⟨by decide, by rw [← threshold_eq]; decide,
    (c3_sentiment_filter mixedScore [⟨0, 1, "good"⟩, ⟨1, 2, "meh"⟩]).2.2
      ⟨1, 2, "meh"⟩ (by decide) (by rw [← threshold_eq]; decide)⟩

/-! C4: the per-clip duration cap. -/

/-- C4.  Every clip collected by the reel renderer has duration at most
60 seconds, and a valid sub-clip [start, end] with duration over 60 is
trimmed to [start, start + 60]; the cap acts on each clip separately,
never on the whole reel. -/
theorem c4_clip_cap (d : ℚ) (l : List Segment) :
    (∀ c ∈ collectClips d l, c.2 - c.1 ≤ 60) ∧
    (∀ s : Segment, 60 < s.stop - s.start → clipOf s = (s.start, s.start + 60)) := by
  constructor
  · intro c hc
    rw [collectClips_eq_filter_map] at hc
    rcases List.mem_map.1 hc with ⟨s, _, rfl⟩
    by_cases h60 : 60 < qsub s.stop s.start
    · simp only [clipOf, h60, if_pos]
      rw [qadd_eq]
      linarith
    · simp only [clipOf, h60, if_neg, Bool.false_eq_true, if_false]
      rw [qsub_eq] at h60
      simpa using le_of_not_lt h60
  · intro s h
    rw [clipOf, if_pos (by rw [qsub_eq]; exact h), qadd_eq]

/-- Witness for C4: a 200-second segment is trimmed to 60 seconds, and
two 60-second clips stay untrimmed even though the reel totals 120
seconds. -/
theorem c4_clip_cap_witness :
    60 < ((⟨0, 200, "x"⟩ : Segment).stop - (⟨0, 200, "x"⟩ : Segment).start) ∧
    clipOf ⟨0, 200, "x"⟩ = (0, 0 + 60) ∧
    collectClips 200 [⟨0, 60, "a"⟩, ⟨60, 120, "b"⟩] = [(0, 60), (60, 120)] :=
  ⟨by rw [← qsub_eq]; decide,
    (c4_clip_cap 200 []).2 ⟨0, 200, "x"⟩ (by rw [← qsub_eq]; decide),
    by decide⟩

/-! C5: invalid segments are skipped, collection continues. -/

/-- C5.  A segment failing the validation is skipped and clip
collection continues: the collected clips are exactly the clips of the
valid segments in original order, and a group made of one segment with
start at or past end between two valid segments still renders a reel
containing exactly the two valid clips in order. -/
theorem c5_invalid_segment (d : ℚ) (l : List Segment) (s1 sbad s2 : Segment)
    (u : String) (i : Nat) (fs : FS)
    (h1 : validSeg d s1 = true) (h2 : validSeg d s2 = true)
    (hbad : sbad.stop ≤ sbad.start) :
    collectClips d l = (l.filter (validSeg d)).map clipOf ∧
    collectClips d [s1, sbad, s2] = [clipOf s1, clipOf s2] ∧
    (create_reel [s1, sbad, s2] d u i fs).2 = some (reelPath u i) := by
  have hb : validSeg d sbad = false := by
    simp only [validSeg, decide_eq_false_iff_not]
    intro hcontra
    exact absurd hcontra.2.2.2.2 (not_lt.2 hbad)
  have hcol : collectClips d [s1, sbad, s2] = [clipOf s1, clipOf s2] := by
    simp [collectClips, h1, h2, hb]
  refine ⟨collectClips_eq_filter_map d l, hcol, ?_⟩
  simp [create_reel, hcol]

/-- Witness for C5 at a group with one degenerate segment between two
valid ones. -/
theorem c5_invalid_segment_witness :
    validSeg 100 ⟨0, 10, "a"⟩ = true ∧
    validSeg 100 ⟨20, 30, "b"⟩ = true ∧
    (⟨5, 5, "x"⟩ : Segment).stop ≤ (⟨5, 5, "x"⟩ : Segment).start ∧
    collectClips 100 [⟨0, 10, "a"⟩, ⟨5, 5, "x"⟩, ⟨20, 30, "b"⟩] =
      [clipOf ⟨0, 10, "a"⟩, clipOf ⟨20, 30, "b"⟩] ∧
    (create_reel [⟨0, 10, "a"⟩, ⟨5, 5, "x"⟩, ⟨20, 30, "b"⟩] 100 "user" 1 []).2 =
      some (reelPath "user" 1) :=
  ⟨by decide, by decide, by decide,
    (c5_invalid_segment 100 [] ⟨0, 10, "a"⟩ ⟨5, 5, "x"⟩ ⟨20, 30, "b"⟩ "user" 1 []
      (by decide) (by decide) (by decide)).2.1,
    (c5_invalid_segment 100 [] ⟨0, 10, "a"⟩ ⟨5, 5, "x"⟩ ⟨20, 30, "b"⟩ "user" 1 []
      (by decide) (by decide) (by decide)).2.2⟩

/-! C6: a group with zero valid clips fails without writing a file and
without stopping the run. -/

/-- C6.  When every segment of a group fails validation, create_reel
returns a failure and leaves the file system unchanged (no reel file is
written), and the reel loop records the failure as a none entry while
continuing with the remaining groups from the same file system. -/
theorem c6_no_valid_clips (d : ℚ) (g : List Segment) (u : String) (i : Nat)
    (fs : FS) (h : ∀ s ∈ g, validSeg d s = false) :
    create_reel g d u i fs = (fs, none) ∧
    ∀ rest : List (List Segment),
      (renderLoop (g :: rest) d u i fs).2 =
        none :: (renderLoop rest d u (i + 1) fs).2 := by
  have hclips : collectClips d g = [] := by
    rw [collectClips_eq_filter_map]
    have hfil : g.filter (validSeg d) = [] := by
      refine List.filter_eq_nil_iff.2 ?_
      intro a ha
      simp [h a ha]
    rw [hfil]
    rfl
  have hcr : create_reel g d u i fs = (fs, none) := by
    simp [create_reel, hclips]
  refine ⟨hcr, ?_⟩
  intro rest
  simp [renderLoop, hcr]

/-- Witness for C6 at a group containing only a degenerate segment. -/
theorem c6_no_valid_clips_witness :
    (∀ s ∈ ([⟨5, 5, "x"⟩] : List Segment), validSeg 100 s = false) ∧
    create_reel [⟨5, 5, "x"⟩] 100 "user" 1 [] = ([], none) :=
  ⟨by decide,
    (c6_no_valid_clips 100 [⟨5, 5, "x"⟩] "user" 1 [] (by decide)).1⟩

/-! C7: the transcript writer. -/

theorem newline_ne_digitChar (d : Nat) (h : d < 10) : '\n' ≠ Char.ofNat (48 + d) := by
  interval_cases d <;> decide

theorem newline_not_mem_natDigitsGo (fuel : Nat) :
    ∀ n, '\n' ∉ natDigitsGo fuel n := by
  induction fuel with
  | zero => intro n; simp [natDigitsGo]
  | succ fuel ih =>
      intro n
      by_cases h : n < 10
      · simp only [natDigitsGo, h, if_pos, List.mem_singleton]
        exact newline_ne_digitChar n h
      · simp only [natDigitsGo, h, if_neg, Bool.false_eq_true, if_false,
          List.mem_append, List.mem_singleton]
        rintro (hc | hc)
        · exact ih (n / 10) hc
        · exact newline_ne_digitChar (n % 10) (Nat.mod_lt _ (by omega)) hc

theorem count_newline_natDigits (n : Nat) : (natDigits n).count '\n' = 0 :=
  List.count_eq_zero.2 (newline_not_mem_natDigitsGo (n + 1) n)

theorem count_newline_pad2 (n : Nat) : (pad2 n).count '\n' = 0 := by
  by_cases h : n < 10
  · simp only [pad2, h, if_pos]
    refine List.count_eq_zero.2 ?_
    simp only [List.mem_cons, List.mem_singleton, List.not_mem_nil]
    rintro (hc | hc | hc)
    · exact absurd hc (by decide)
    · exact newline_ne_digitChar n h hc
    · exact hc
  · simp only [pad2, h, if_neg, Bool.false_eq_true, if_false]
    exact count_newline_natDigits n

theorem count_newline_fmt2 (q : ℚ) : (fmt2 q).count '\n' = 0 := by
  simp only [fmt2, List.count_append, List.count_cons]
  rw [count_newline_natDigits, count_newline_pad2]
  by_cases h : round2 q < 0 <;> simp [h]

theorem count_newline_transcriptLine (s : Segment) (h : '\n' ∉ s.text.toList) :
    (transcriptLine s).count '\n' = 1 := by
  simp only [transcriptLine, List.count_append, List.count_cons]
  rw [count_newline_fmt2, count_newline_fmt2, List.count_eq_zero.2 h]
  decide

theorem count_newline_transcriptContent (l : List Segment)
    (h : ∀ s ∈ l, '\n' ∉ s.text.toList) :
    (transcriptContent l).count '\n' = l.length := by
  induction l with
  | nil => rfl
  | cons s rest ih =>
      simp only [transcriptContent, List.map_cons, List.flatten_cons,
        List.count_append] at ih ⊢
      rw [count_newline_transcriptLine s (h s (by simp)),
        ih (fun t ht => h t (by simp [ht]))]
      simp [Nat.add_comm]

/-- C7.  The transcript writer returns the key-derived path, stores one
line per segment in the format of the source f-string (so the written
text has exactly one newline per segment whenever the segment texts are
single-line), overwrites whatever was stored at that path before, and
writing an empty list succeeds with empty contents. -/
theorem c7_save_transcript (transcript : List Segment) (filename username : String)
    (fs : FS) (h : ∀ s ∈ transcript, '\n' ∉ s.text.toList) :
    (save_transcript transcript filename username fs).2 =
      some (transcriptPath filename username) ∧
    fsRead (save_transcript transcript filename username fs).1
        (transcriptPath filename username) =
      some (String.mk (transcriptContent transcript)) ∧
    (transcriptContent transcript).count '\n' = transcript.length ∧
    transcriptContent [] = [] := by
  refine ⟨rfl, ?_, count_newline_transcriptContent transcript h, rfl⟩
  exact fsRead_fsWrite_self fs (transcriptPath filename username)
    (String.mk (transcriptContent transcript))

/-- Witness for C7 at a one-segment transcript over a file system that
already holds older contents at the same path. -/
theorem c7_save_transcript_witness :
    (∀ s ∈ ([⟨0, mkRat 3 2, "hello"⟩] : List Segment), '\n' ∉ s.text.toList) ∧
    fsRead (save_transcript [⟨0, mkRat 3 2, "hello"⟩] "v.mp4" "user"
        [(transcriptPath "v.mp4" "user", "old")]).1
      (transcriptPath "v.mp4" "user") =
      some (String.mk (transcriptContent [⟨0, mkRat 3 2, "hello"⟩])) :=
  ⟨by decide,
    (c7_save_transcript [⟨0, mkRat 3 2, "hello"⟩] "v.mp4" "user"
      [(transcriptPath "v.mp4" "user", "old")] (by decide)).2.1⟩

/-! C9: transcription failure and empty transcription short-circuit. -/

/-- C9.  When transcription fails (none) or succeeds with an empty
segment list, the pipeline returns the early result before sentiment
analysis: the final file system holds exactly the temporary video and
the extracted audio on top of the initial state, so no filter output,
no group, no reel and no transcript is produced. -/
theorem c9_transcription_short_circuit (env : Env) (username : String) (fs : FS)
    (hok : env.extract_ok = true)
    (h : env.transcribed = none ∨ env.transcribed = some []) :
    process_video_upload env username fs =
      (fsWrite (fsWrite fs env.temp_video_path "")
        (audioPathOf env.temp_video_path username) "", PipelineResult.early) := by
  rcases h with h | h <;> simp [process_video_upload, hok, h]

/-- Environment whose transcription succeeds with zero segments. -/
def emptyTransEnv : Env :=
  { temp_video_path := "/tmp/video.mp4", extract_ok := true,
    transcribed := some [], score := oneScore, video_duration := 100,
    motivational := none }

/-- Witness for C9 at a run whose transcription returns zero
segments. -/
theorem c9_transcription_short_circuit_witness :
    emptyTransEnv.extract_ok = true ∧
    (emptyTransEnv.transcribed = none ∨ emptyTransEnv.transcribed = some []) ∧
    process_video_upload emptyTransEnv "user" [] =
      (fsWrite (fsWrite [] emptyTransEnv.temp_video_path "")
        (audioPathOf emptyTransEnv.temp_video_path "user") "",
        PipelineResult.early) :=
  ⟨rfl, Or.inr rfl,
    c9_transcription_short_circuit emptyTransEnv "user" [] rfl (Or.inr rfl)⟩

/-! C10: shape of the reels list. -/

theorem makeGroups_length_of_le (l : List Segment) (h : 3 ≤ l.length) :
    (makeGroups l).length = 3 := by
  simp [makeGroups, h]

theorem makeGroups_eq_nil_of_lt (l : List Segment) (h : l.length < 3) :
    makeGroups l = [] := by
  simp [makeGroups, Nat.not_le.2 h]

theorem renderReels_eq_of_lt (l : List Segment) (d : ℚ) (u : String) (fs : FS)
    (h : l.length < 3) : renderReels l d u fs = (fs, []) := by
  rw [renderReels, makeGroups_eq_nil_of_lt l h]
  rfl

theorem renderLoop_snd_getD (gs : List (List Segment)) (d : ℚ) (u : String) :
    ∀ j i fs, i < gs.length →
      (renderLoop gs d u j fs).2.getD i none =
        (create_reel (gs.getD i []) d u (j + i) fs).2 := by
  induction gs with
  | nil => intro j i fs h; exact absurd h (by simp)
  | cons g rest ih =>
      intro j i fs h
      match i with
      | 0 => simp [renderLoop]
      | i + 1 =>
          simp only [renderLoop, List.getD_cons_succ]
          rw [ih (j + 1) i _ (by simpa using h)]
          rw [create_reel_snd_const _ _ _ _ _ fs]
          rw [show j + 1 + i = j + (i + 1) from by omega]

theorem renderReels_snd_const (l : List Segment) (d : ℚ) (u : String)
    (fs fs' : FS) :
    (renderReels l d u fs).2 = (renderReels l d u fs').2 :=
  renderLoop_snd_const (makeGroups l) d u 1 fs fs'

/-- C10.  With at least 3 important segments the reels list has length
exactly 3 and its entry at position i is the render result of group i
(none when that render fails, so failed groups occupy their position
instead of being omitted); with fewer than 3 important segments the
reels list is empty.  The list returned by the full pipeline is exactly
the list produced by the reel loop over the filtered segments. -/
theorem c10_reels_shape (important : List Segment) (d : ℚ) (u : String) (fs : FS)
    (env : Env) (username : String) (segments : List Segment) :
    (3 ≤ important.length →
      (renderReels important d u fs).2.length = 3 ∧
      ∀ i, i < 3 → (renderReels important d u fs).2.getD i none =
        (create_reel ((makeGroups important).getD i []) d u (i + 1) fs).2) ∧
    (important.length < 3 → (renderReels important d u fs).2 = []) ∧
    (env.extract_ok = true → env.transcribed = some segments →
      segments.isEmpty = false →
      resultReels (process_video_upload env username fs).2 =
        (renderReels (analyze_sentiment env.score segments)
          env.video_duration username fs).2) := by
  refine ⟨?_, ?_, ?_⟩
  · intro h
    constructor
    · rw [renderReels, renderLoop_snd_length, makeGroups_length_of_le important h]
    · intro i hi
      rw [renderReels, renderLoop_snd_getD (makeGroups important) d u 1 i fs
        (by rw [makeGroups_length_of_le important h]; exact hi)]
      rw [Nat.add_comm 1 i]
  · intro h
    rw [renderReels_eq_of_lt important d u fs h]
  · intro hok ht hempty
    simp only [process_video_upload, hok, if_pos, ht, hempty, Bool.false_eq_true,
      if_false, resultReels]
    exact renderReels_snd_const _ _ _ _ fs

/-- Six positive segments whose middle pair is degenerate, so that the
second of the three groups fails to render. -/
def sixSegs : List Segment :=
  [⟨0, 5, "a"⟩, ⟨5, 10, "b"⟩, ⟨20, 20, "c"⟩, ⟨30, 30, "d"⟩, ⟨40, 45, "e"⟩,
    ⟨45, 50, "f"⟩]

/-- Witness for C10: six important segments give three reels, with a
none placeholder at the failed middle group. -/
theorem c10_reels_shape_witness :
    3 ≤ sixSegs.length ∧
    (renderReels sixSegs 100 "user" []).2.length = 3 ∧
    (renderReels sixSegs 100 "user" []).2 =
      [some (reelPath "user" 1), none, some (reelPath "user" 3)] :=
  ⟨by decide,
    ((c10_reels_shape sixSegs 100 "user" [] emptyTransEnv "user" []).1
      (by decide)).1,
    by decide⟩

/-! C2: the cleanup claim fails on the code. -/

/-- Environment of a run whose transcription fails. -/
def cleanupEnvFail : Env :=
  { temp_video_path := "/tmp/video.mp4", extract_ok := true,
    transcribed := none, score := oneScore, video_duration := 100,
    motivational := none }

/-- Counterexample to C2 as stated: after a run that fails at
transcription, both the temporary video file and the extracted audio
file still exist on disk. -/
theorem c2_cleanup_counterexample :
    fsExists (process_video_upload cleanupEnvFail "user" []).1
      "/tmp/video.mp4" = true ∧
    fsExists (process_video_upload cleanupEnvFail "user" []).1
      (audioPathOf "/tmp/video.mp4" "user") = true := by
  constructor <;> decide

/-- C2 amended.  Only a run that reaches the reel and transcript stage
deletes the temporary video file, and even such a run never deletes the
extracted audio file; runs failing at extraction or transcription
delete neither file. -/
theorem c2_cleanup_amended (env : Env) (username : String) (fs : FS)
    (segments : List Segment)
    (hok : env.extract_ok = true) (ht : env.transcribed = some segments)
    (hne : segments.isEmpty = false)
    (hdist : audioPathOf env.temp_video_path username ≠ env.temp_video_path) :
    fsExists (process_video_upload env username fs).1 env.temp_video_path = false ∧
    fsExists (process_video_upload env username fs).1
      (audioPathOf env.temp_video_path username) = true := by
  simp only [process_video_upload, hok, if_pos, ht, hne, Bool.false_eq_true,
    if_false]
  constructor
  · exact fsExists_fsUnlink_self _ _
  · rw [fsExists_fsUnlink_ne _ _ _ hdist]
    simp only [save_transcript]
    apply fsExists_fsWrite_mono
    apply renderLoop_fsExists_mono
    exact fsExists_fsWrite_self _ _ _

/-- Environment of a fully successful run. -/
def cleanupEnvOk : Env :=
  { temp_video_path := "/tmp/video.mp4", extract_ok := true,
    transcribed := some [⟨0, 10, "good"⟩], score := oneScore,
    video_duration := 100, motivational := some "summary" }

/-- Witness for the amended C2 at a fully successful run. -/
theorem c2_cleanup_amended_witness :
    cleanupEnvOk.extract_ok = true ∧
    cleanupEnvOk.transcribed = some [⟨0, 10, "good"⟩] ∧
    ([⟨0, 10, "good"⟩] : List Segment).isEmpty = false ∧
    audioPathOf cleanupEnvOk.temp_video_path "user" ≠
      cleanupEnvOk.temp_video_path ∧
    fsExists (process_video_upload cleanupEnvOk "user" []).1
      cleanupEnvOk.temp_video_path = false ∧
    fsExists (process_video_upload cleanupEnvOk "user" []).1
      (audioPathOf cleanupEnvOk.temp_video_path "user") = true := by
  refine ⟨rfl, rfl, by decide, by decide, ?_, ?_⟩
  · exact (c2_cleanup_amended cleanupEnvOk "user" [] [⟨0, 10, "good"⟩]
      rfl rfl (by decide) (by decide)).1
  · exact (c2_cleanup_amended cleanupEnvOk "user" [] [⟨0, 10, "good"⟩]
      rfl rfl (by decide) (by decide)).2

end VideoToReel
